import Mathlib

/-!
Verification development for the ODK python submission server
(`odk_server.py`).  Strings are modelled as `List Char`; the Python
functions used by the `fileUpload` application are embedded as
executable Lean definitions, faithful to Python 2.4 semantics
(`str.replace`, `os.path.join`, `os.path.splitext`, `re.search` with the
anchored greedy pattern of `MakeDataDirForForm`).
-/

/-- Characters of a Lean string literal, used to write Python strings. -/
def lit (s : String) : List Char := s.data

/-- Concatenation of a list of lists (repeated `+=` on a Python str). -/
def joinAll {α : Type} : List (List α) → List α
  | [] => []
  | l :: ls => l ++ joinAll ls

/-- `hasPre p s` : does `s` start with `p`?  (Python `str.startswith`.) -/
def hasPre : List Char → List Char → Bool
  | [], _ => true
  | _ :: _, [] => false
  | a :: ps, b :: ss => a == b && hasPre ps ss

/-- `hasSub p s` : does `p` occur as a contiguous substring of `s`?
(Python `in` on strings.) -/
def hasSub (p : List Char) : List Char → Bool
  | [] => hasPre p []
  | c :: rest => hasPre p (c :: rest) || hasSub p rest

/-- `endsWithL s suf` : does `s` end with `suf`?  (Python `str.endswith`.) -/
def endsWithL (s suf : List Char) : Bool := hasPre suf.reverse s.reverse

/-- Index of the last occurrence of `c` in `s`, `none` when absent
(Python `str.rfind`, with `none` playing the role of `-1`). -/
def rfindP (c : Char) : List Char → Option Nat
  | [] => none
  | x :: xs =>
    match rfindP c xs with
    | some i => some (i + 1)
    | none => if x == c then some 0 else none

/-- Python `str.lower` on the ASCII strings the server handles. -/
def lowerStr (s : List Char) : List Char := s.map Char.toLower

/-- One pass of Python `s.replace(pat, '')` for a three-character
pattern `[a, b, c]`: scan left to right, remove each non-overlapping
occurrence, and continue scanning after the removed text. -/
def strip3 (a b c : Char) : List Char → List Char
  | x :: y :: z :: rest =>
    if x == a && y == b && z == c then strip3 a b c rest
    else x :: strip3 a b c (y :: z :: rest)
  | s => s

/-- Line 345 of `odk_server.py`:
`form_file.filename.replace('../', '').replace('..\\', '')`. -/
def sanitize (s : List Char) : List Char :=
  strip3 '.' '.' '\\' (strip3 '.' '.' '/' s)

/-- `posixpath.join` for two components (Python 2.4):
an absolute second component replaces the first. -/
def osPathJoin (a b : List Char) : List Char :=
  if hasPre ['/'] b then b
  else if a == [] || endsWithL a ['/'] then a ++ b
  else a ++ '/' :: b

/-- The split position used by Python 2.4 `posixpath.splitext`:
the index of the last `'.'`, provided it lies strictly after the last
`'/'`; `none` when the name has no extension. -/
def splitextIdx (p : List Char) : Option Nat :=
  match rfindP '.' p, rfindP '/' p with
  | none, _ => none
  | some i, none => some i
  | some i, some j => if i ≤ j then none else some i

/-- Lines 334-336 of `odk_server.py`: `os.path.splitext(filename)[1]`
followed by `ext.replace('.', '')`. -/
def extOf (f : List Char) : List Char :=
  match splitextIdx f with
  | none => []
  | some i => (f.drop i).filter (fun c => c != '.')

/-- `os.path.splitext(p)[0]` (Python 2.4), used by `formList`. -/
def splitextRoot (p : List Char) : List Char :=
  match splitextIdx p with
  | none => p
  | some i => p.take i

/-- Does `s` begin with the 19-character shape
`[0-9]{4}-[0-9]{2}-[0-9]{2}_[0-9]{2}-[0-9]{2}-[0-9]{2}`
(the fixed-width part of the regex on lines 204-205)?  Characters
beyond the 19th are ignored, as the regex has no end anchor. -/
def dateShape : List Char → Bool
  | y1 :: y2 :: y3 :: y4 :: c1 :: m1 :: m2 :: c2 :: d1 :: d2 :: c3 ::
      h1 :: h2 :: c4 :: n1 :: n2 :: c5 :: s1 :: s2 :: _ =>
    y1.isDigit && y2.isDigit && y3.isDigit && y4.isDigit && c1 == '-' &&
    m1.isDigit && m2.isDigit && c2 == '-' && d1.isDigit && d2.isDigit &&
    c3 == '_' && h1.isDigit && h2.isDigit && c4 == '-' &&
    n1.isDigit && n2.isDigit && c5 == '-' && s1.isDigit && s2.isDigit
  | _ => false

/-- Result of `re.compile('^(.*)([0-9]{4}-..-.._..-..-..)').search(f)`:
the split position between group 1 (`.*`, greedy, so the LARGEST
position wins) and group 2 (the timestamp).  `^` anchors group 1 at the
start of the string and `.` does not cross a newline, so a candidate
position qualifies only when no `'\n'` precedes it. -/
def greedySplit (f : List Char) : Option Nat :=
  ((List.range (f.length + 1)).reverse).find?
    (fun i => !((f.take i).contains '\n') && dateShape (f.drop i))

/-- One multipart part as the `submission` handler sees it: the field
name, the declared filename, and whether the `cgi` module spilled its
body to a named temporary file (large part) or kept it in a `cStringIO`
buffer with no `name` attribute (small part). -/
structure FormPart where
  name : List Char
  filename : List Char
  spilled : Bool
deriving DecidableEq

/-- The `for field in form_fields` loop of `MakeDataDirForForm`
(lines 198-211): scan the parts in order; at the first `.xml`-named part
whose filename matches the timestamp regex, return the lower-cased
group 1 and the matched timestamp; an `.xml` part with no timestamp does
not break the loop. -/
def scanLoop : List FormPart → Option (List Char × List Char)
  | [] => none
  | p :: rest =>
    if endsWithL p.filename (lit ".xml") then
      match greedySplit p.filename with
      | some i =>
        some (lowerStr (p.filename.take i), (p.filename.drop i).take 19)
      | none => scanLoop rest
    else scanLoop rest

/-- `fileUpload.MakeDataDirForForm` (lines 177-220), with the wall-clock
fallback `datetime.datetime.now().strftime('%Y-%m-%d_%H-%M-%S')` passed
in as the argument `now`.  The directory-creation side effect is
modelled separately (see `Effect`). -/
def makeDataDirForForm (dataDir now : List Char) (parts : List FormPart) :
    List Char :=
  match scanLoop parts with
  | some (n, d) => osPathJoin (osPathJoin dataDir n) d
  | none => osPathJoin (osPathJoin dataDir (lit "unnamed")) now

/-- The request data the `submission` handler can observe: the transport
scheme the client used (an attribute of the cherrypy request object that
the handler never reads), the `Host` request header, and the parsed
multipart parts in arrival order (`cgi.FieldStorage` iterates field
names in first-appearance order). -/
structure Request where
  scheme : List Char
  host : List Char
  parts : List FormPart
deriving DecidableEq

/-- Per-part outcome of the placement loop (lines 332-364): either the
part is skipped because its extension is not allowed, or a file is
stored at a target path (written from the in-memory buffer, or moved
from the spilled temporary file). -/
inductive Outcome where
  | skipped (ext : List Char)
  | stored (spilled : Bool) (path : List Char)
deriving DecidableEq

/-- One iteration of the placement loop: extension check against the
allow-list (lines 334-341), then sanitization of the declared filename
and `os.path.join` with the submission directory (lines 344-346). -/
def processPart (allowed : List (List Char)) (dir : List Char)
    (p : FormPart) : Outcome :=
  let e := extOf p.filename
  if e ∈ allowed then .stored p.spilled (osPathJoin dir (sanitize p.filename))
  else .skipped e

/-- The line this outcome appends to `html_response`
(line 341 or line 364). -/
def outcomeLine (o : Outcome) : List Char :=
  match o with
  | .skipped e =>
    lit "Server not configured to save \"*." ++ e ++ lit "\" files<br>"
  | .stored _ p => lit "Stored: " ++ p ++ lit "<br>"

/-- Filesystem effects of the handler, in program order. -/
inductive Effect where
  | mkdirIfAbsent (dir : List Char)
  | writeNew (path : List Char)
  | moveTemp (path : List Char)
deriving DecidableEq

/-- Filesystem effects of one part's outcome: a skipped part touches
nothing; a small (buffered) part is written with `open(...).write`
(lines 353-358); a spilled part's temporary file is moved with
`shutil.move` (lines 359-362). -/
def outcomeEffects (o : Outcome) : List Effect :=
  match o with
  | .skipped _ => []
  | .stored false p => [.writeNew p]
  | .stored true p => [.moveTemp p]

/-- The observable result of the `submission` handler: response status,
`Location` header, response body, and the filesystem effects in
program order. -/
structure SubmissionResult where
  status : Nat
  location : List Char
  body : List Char
  effects : List Effect
deriving DecidableEq

/-- `fileUpload.submission` (lines 289-377): resolve the submission
directory from the parts (creating it, line 329) before the placement
loop runs, process every part in order, and answer 201 with
`Location: 'http://%s' % cherrypy.request.headers['Host']`. -/
def submission (dataDir : List Char) (allowed : List (List Char))
    (now : List Char) (req : Request) : SubmissionResult :=
  let dir := makeDataDirForForm dataDir now req.parts
  let outs := req.parts.map (processPart allowed dir)
  { status := 201
    location := lit "http://" ++ req.host
    body := joinAll (outs.map outcomeLine)
    effects := .mkdirIfAbsent dir :: joinAll (outs.map outcomeEffects) }

/-- The paths at which the handler stored files, in order. -/
def storedPathsOf (r : SubmissionResult) : List (List Char) :=
  r.effects.filterMap (fun e =>
    match e with
    | .writeNew p => some p
    | .moveTemp p => some p
    | .mkdirIfAbsent _ => none)

/-- `'xml,jpg,png'.split(',')`, the server's default allow-list. -/
def allowedDefault : List (List Char) := [lit "xml", lit "jpg", lit "png"]

/-- `fileUpload.formList` (lines 257-287), with the glob result passed
in as the list of `*.xml` basenames found in `forms_dir` (`glob.glob`
returns their paths; the handler takes `os.path.basename` of each, so
the names contain no `'/'`).  Builds one
`<form url="http://HOST/forms/BASE">NAME</form>` line per file, where
`NAME = os.path.splitext(BASE)[0]`. -/
def formListBody (host : List Char) (files : List (List Char)) :
    List Char :=
  lit "<forms>\n" ++
  joinAll (files.map (fun base =>
    lit "<form url=\"http://" ++ host ++ lit "/forms/" ++ base ++
    lit "\">" ++ splitextRoot base ++ lit "</form>\n")) ++
  lit "</forms>\n"

/-- The `formList` response: the handler returns the XML string and
never sets `cherrypy.response.status`, so cherrypy answers with its
default success status `200`. -/
def formListResult (host : List Char) (files : List (List Char)) :
    Nat × List Char :=
  (200, formListBody host files)

/-- The timestamp match of a filename, packaged as an option:
`some (lower-cased group 1, group 2)` when the regex matches. -/
def tsMatch (f : List Char) : Option (List Char × List Char) :=
  (greedySplit f).map (fun i => (lowerStr (f.take i), (f.drop i).take 19))

/-- Does this filename end in `.xml` and match the timestamp regex?
(The parts at which the resolver's scan stops.) -/
def matchingName (f : List Char) : Bool :=
  endsWithL f (lit ".xml") && (tsMatch f).isSome

/-- Written from the spec's words for the directory resolver (claim C5):
scan the parts in order, stop at the first part whose filename ends in
`.xml` and matches a prefix followed by `YYYY-MM-DD_HH-MM-SS`; form
identity is the matched prefix lower-cased and the timestamp the matched
date/time string; with no matching part, form identity is `unnamed` and
the timestamp the server's current wall-clock time; the result is
`data_dir/form_identity/timestamp`. -/
def resolveSpec (dataDir now : List Char) (parts : List FormPart) :
    List Char :=
  match (parts.find? (fun p => matchingName p.filename)).bind
      (fun p => tsMatch p.filename) with
  | some (n, d) => osPathJoin (osPathJoin dataDir n) d
  | none => osPathJoin (osPathJoin dataDir (lit "unnamed")) now

/-- Written from the spec's words for `formList` (claim C8): given the
stems of the `*.xml` files in the forms directory, the body opens with
`<forms>`, has one `<form url="http://HOST/forms/NAME.xml">NAME</form>`
line per file, and closes with `</forms>`. -/
def formListSpecBody (host : List Char) (stems : List (List Char)) :
    List Char :=
  lit "<forms>\n" ++
  joinAll (stems.map (fun s =>
    lit "<form url=\"http://" ++ host ++ lit "/forms/" ++ s ++
    lit ".xml" ++ lit "\">" ++ s ++ lit "</form>\n")) ++
  lit "</forms>\n"

/-- The two parts of the C1 scenario, in arrival order. -/
def partsC1 : List FormPart :=
  [⟨lit "xml_submission_file", lit "Basic_2010-03-03_01-49-09.xml", true⟩,
   ⟨lit "photo1", lit "photo1.jpg", false⟩]

theorem hasPre_self (p : List Char) : hasPre p p = true := by
  induction p with
  | nil => rfl
  | cons a ps ih => simp [hasPre, ih]

theorem hasPre_append (p s t : List Char) (h : hasPre p s = true) :
    hasPre p (s ++ t) = true := by
  induction p generalizing s with
  | nil => rfl
  | cons a ps ih =>
    cases s with
    | nil => simp [hasPre] at h
    | cons b ss =>
      simp only [hasPre, Bool.and_eq_true, beq_iff_eq] at h
      simp only [List.cons_append, hasPre, Bool.and_eq_true, beq_iff_eq]
      exact ⟨h.1, ih ss h.2⟩

theorem hasSub_nil_pat (t : List Char) : hasSub ([] : List Char) t = true := by
  cases t with
  | nil => rfl
  | cons c r => simp [hasSub, hasPre]

theorem hasSub_append_right (p s t : List Char) (h : hasSub p s = true) :
    hasSub p (s ++ t) = true := by
  induction s with
  | nil =>
    cases p with
    | nil => exact hasSub_nil_pat t
    | cons a ps => simp [hasSub, hasPre] at h
  | cons c ss ih =>
    rw [hasSub, Bool.or_eq_true] at h
    rcases h with h | h
    · have h2 := hasPre_append p (c :: ss) t h
      rw [List.cons_append] at h2 ⊢
      rw [hasSub, Bool.or_eq_true]
      exact Or.inl h2
    · rw [List.cons_append, hasSub, Bool.or_eq_true]
      exact Or.inr (ih h)

theorem hasSub_append_left (p s t : List Char) (h : hasSub p t = true) :
    hasSub p (s ++ t) = true := by
  induction s with
  | nil => simpa using h
  | cons c ss ih =>
    rw [List.cons_append, hasSub, Bool.or_eq_true]
    exact Or.inr ih

theorem hasSub_self (p : List Char) : hasSub p p = true := by
  cases p with
  | nil => rfl
  | cons a ps =>
    have h := hasPre_self (a :: ps)
    rw [hasSub, Bool.or_eq_true]
    exact Or.inl h

theorem hasSub_joinAll (l : List Char) (L : List (List Char)) (h : l ∈ L) :
    hasSub l (joinAll L) = true := by
  induction L with
  | nil => cases h
  | cons m ms ih =>
    rw [joinAll]
    rcases List.mem_cons.mp h with rfl | hm
    · exact hasSub_append_right _ _ _ (hasSub_self l)
    · exact hasSub_append_left _ _ _ (ih hm)

theorem joinAll_eq_nil {α : Type} (L : List (List α))
    (h : ∀ l ∈ L, l = []) : joinAll L = [] := by
  induction L with
  | nil => rfl
  | cons m ms ih =>
    rw [joinAll, h m (List.mem_cons_self m ms),
      ih (fun l hl => h l (List.mem_cons_of_mem m hl))]
    rfl

theorem strip3_id_of_no_occ (a b c : Char) (s : List Char)
    (h : hasSub [a, b, c] s = false) : strip3 a b c s = s := by
  induction s with
  | nil => rfl
  | cons x xs ih =>
    rcases xs with _ | ⟨y, _ | ⟨z, rest⟩⟩
    · rfl
    · rfl
    · rw [hasSub, Bool.or_eq_false_iff] at h
      obtain ⟨h1, h2⟩ := h
      have hcond : (x == a && y == b && z == c) = false := by
        by_contra hne
        rw [Bool.not_eq_false] at hne
        simp only [Bool.and_eq_true, beq_iff_eq] at hne
        obtain ⟨⟨rfl, rfl⟩, rfl⟩ := hne
        simp [hasPre] at h1
      rw [strip3, if_neg (by simp [hcond])]
      exact congrArg (x :: ·) (ih h2)

theorem rfindP_append_of_some (c : Char) (s t : List Char) (i : Nat)
    (h : rfindP c t = some i) : rfindP c (s ++ t) = some (s.length + i) := by
  induction s with
  | nil => simpa using h
  | cons x xs ih =>
    rw [List.cons_append, rfindP, ih]
    simp only [Option.some.injEq, List.length_cons]
    omega

theorem rfindP_append_of_none (c : Char) (s t : List Char)
    (h : rfindP c t = none) : rfindP c (s ++ t) = rfindP c s := by
  induction s with
  | nil => simpa using h
  | cons x xs ih =>
    rw [List.cons_append, rfindP, ih]
    rw [rfindP]

theorem splitextRoot_stem (s : List Char) (h : rfindP '/' s = none) :
    splitextRoot (s ++ lit ".xml") = s := by
  have hd : rfindP '.' (s ++ lit ".xml") = some s.length := by
    have h0 : rfindP '.' (lit ".xml") = some 0 := by decide
    simpa using rfindP_append_of_some '.' s (lit ".xml") 0 h0
  have hs : rfindP '/' (s ++ lit ".xml") = none := by
    have h0 : rfindP '/' (lit ".xml") = none := by decide
    rw [rfindP_append_of_none '/' s (lit ".xml") h0, h]
  rw [splitextRoot, splitextIdx, hd, hs]
  exact List.take_left s (lit ".xml")

theorem scanLoop_eq_find (parts : List FormPart) :
    scanLoop parts =
      (parts.find? (fun p => matchingName p.filename)).bind
        (fun p => tsMatch p.filename) := by
  induction parts with
  | nil => rfl
  | cons p rest ih =>
    by_cases hx : endsWithL p.filename (lit ".xml") = true
    · cases hg : greedySplit p.filename with
      | some i =>
        have hm : matchingName p.filename = true := by
          simp [matchingName, tsMatch, hx, hg]
        simp [scanLoop, hx, hg, List.find?, hm, tsMatch]
      | none =>
        have hm : matchingName p.filename = false := by
          simp [matchingName, tsMatch, hg]
        simp [scanLoop, hx, hg, List.find?, hm, ih]
    · have hx' : endsWithL p.filename (lit ".xml") = false := by
        simpa using hx
      have hm : matchingName p.filename = false := by
        simp [matchingName, hx']
      simp [scanLoop, hx', List.find?, hm, ih]

theorem scanLoop_eq_filter (parts : List FormPart) :
    scanLoop parts =
      (((parts.map FormPart.filename).filter matchingName).head?).bind
        tsMatch := by
  induction parts with
  | nil => rfl
  | cons p rest ih =>
    by_cases hx : endsWithL p.filename (lit ".xml") = true
    · cases hg : greedySplit p.filename with
      | some i =>
        have hm : matchingName p.filename = true := by
          simp [matchingName, tsMatch, hx, hg]
        simp [scanLoop, hx, hg, List.filter, hm, tsMatch]
      | none =>
        have hm : matchingName p.filename = false := by
          simp [matchingName, tsMatch, hg]
        simp [scanLoop, hx, hg, List.filter, hm, ih]
    · have hx' : endsWithL p.filename (lit ".xml") = false := by
        simpa using hx
      have hm : matchingName p.filename = false := by
        simp [matchingName, hx']
      simp [scanLoop, hx', List.filter, hm, ih]

/-- Claim C1, counterexample: in the scenario with parts
`Basic_2010-03-03_01-49-09.xml` and `photo1.jpg` under allow-list
`xml,jpg,png`, the stored paths are NOT
`data/basic/2010-03-03_01-49-09/...` as claimed: the regex group `(.*)`
captures the separator underscore, so the first-level folder is
`basic_`, not `basic`. -/
theorem c1_scenario_counterexample :
    storedPathsOf (submission (lit "data") allowedDefault
        (lit "2011-01-01_00-00-00") ⟨lit "http", lit "example.org", partsC1⟩) ≠
      [lit "data/basic/2010-03-03_01-49-09/Basic_2010-03-03_01-49-09.xml",
       lit "data/basic/2010-03-03_01-49-09/photo1.jpg"] := by decide

/-- Claim C1, amended: for the submission with exactly the parts
`Basic_2010-03-03_01-49-09.xml` and `photo1.jpg` and allow-list
`xml,jpg,png`, the stored paths are
`data/basic_/2010-03-03_01-49-09/Basic_2010-03-03_01-49-09.xml` and
`data/basic_/2010-03-03_01-49-09/photo1.jpg` (first-level folder
`basic_`, with the underscore), the response status is 201, and the
`Location` header is `http://` followed by the request's `Host`
header. -/
theorem c1_scenario_amended (scheme host now : List Char) :
    storedPathsOf (submission (lit "data") allowedDefault now
        ⟨scheme, host, partsC1⟩) =
      [lit "data/basic_/2010-03-03_01-49-09/Basic_2010-03-03_01-49-09.xml",
       lit "data/basic_/2010-03-03_01-49-09/photo1.jpg"] ∧
    (submission (lit "data") allowedDefault now
        ⟨scheme, host, partsC1⟩).status = 201 ∧
    (submission (lit "data") allowedDefault now
        ⟨scheme, host, partsC1⟩).location = lit "http://" ++ host :=
  ⟨rfl, rfl, rfl⟩

/-- Claim C2, counterexample: the sanitization transform is not
idempotent.  `sanitize "....//" = "../"` (removing the inner `../`
splices a new one together) and a second application strips that too. -/
theorem c2_sanitize_not_idempotent :
    sanitize (sanitize (lit "....//")) ≠ sanitize (lit "....//") := by decide

/-- Claim C2, amended: the transform is idempotent on every input whose
once-sanitized form contains no `../` and no `..\` substring; on inputs
like `....//` whose single pass leaves a traversal behind, a second
application strips further. -/
theorem c2_sanitize_idempotent_when_clean (x : List Char)
    (h1 : hasSub ['.', '.', '/'] (sanitize x) = false)
    (h2 : hasSub ['.', '.', '\\'] (sanitize x) = false) :
    sanitize (sanitize x) = sanitize x := by
  show strip3 '.' '.' '\\' (strip3 '.' '.' '/' (sanitize x)) = sanitize x
  rw [strip3_id_of_no_occ _ _ _ _ h1, strip3_id_of_no_occ _ _ _ _ h2]

/-- Witness for C2 amended at the concrete input `a/../b`. -/
theorem c2_sanitize_idempotent_when_clean_witness :
    hasSub ['.', '.', '/'] (sanitize (lit "a/../b")) = false ∧
    hasSub ['.', '.', '\\'] (sanitize (lit "a/../b")) = false ∧
    sanitize (sanitize (lit "a/../b")) = sanitize (lit "a/../b") :=
  ⟨by decide, by decide,
   c2_sanitize_idempotent_when_clean (lit "a/../b") (by decide) (by decide)⟩

/-- Claim C3 (a bug in the code): the single-pass substring stripping
does NOT guarantee that the sanitized filename is free of traversal
segments.  For the declared filename `....//secret` the sanitized name
is `../secret`, which still contains `../`, and the stored path built
from it steps out of the submission directory. -/
theorem c3_sanitize_leaves_traversal :
    sanitize (lit "....//secret") = lit "../secret" ∧
    hasSub (lit "../") (sanitize (lit "....//secret")) = true ∧
    osPathJoin (lit "./data/unnamed/2010-01-01_00-00-00")
        (sanitize (lit "....//secret")) =
      lit "./data/unnamed/2010-01-01_00-00-00/../secret" := by decide

/-- Claim C4, counterexample: for the disallowed part `report.pdf` the
response body is `Server not configured to save "*.pdf" files<br>`;
it names the extension only — the filename (`report.pdf`, or even
`report`) occurs nowhere in the body, so the body does not report the
skipped part by filename. -/
theorem c4_skip_note_counterexample :
    storedPathsOf (submission (lit "data") allowedDefault
        (lit "2011-01-01_00-00-00")
        ⟨lit "http", lit "h", [⟨lit "f", lit "report.pdf", false⟩]⟩) = [] ∧
    (submission (lit "data") allowedDefault (lit "2011-01-01_00-00-00")
        ⟨lit "http", lit "h", [⟨lit "f", lit "report.pdf", false⟩]⟩).status =
      201 ∧
    hasSub (lit "report") (submission (lit "data") allowedDefault
        (lit "2011-01-01_00-00-00")
        ⟨lit "http", lit "h", [⟨lit "f", lit "report.pdf", false⟩]⟩).body =
      false := by decide

/-- Claim C4, amended: every part whose extension is not in the
allow-list is skipped (it produces no filesystem effect, hence no
StoredFile), the request still answers 201, and the response body
reports the skipped part by its extension (the
`Server not configured to save "*.EXT" files` note). -/
theorem c4_skipped_part_amended (dataDir : List Char)
    (allowed : List (List Char)) (now : List Char) (req : Request)
    (p : FormPart) (hmem : p ∈ req.parts)
    (hext : extOf p.filename ∉ allowed) :
    processPart allowed (makeDataDirForForm dataDir now req.parts) p =
      .skipped (extOf p.filename) ∧
    outcomeEffects (processPart allowed
        (makeDataDirForForm dataDir now req.parts) p) = [] ∧
    (submission dataDir allowed now req).status = 201 ∧
    hasSub (outcomeLine (.skipped (extOf p.filename)))
      (submission dataDir allowed now req).body = true := by
  have hpp : processPart allowed (makeDataDirForForm dataDir now req.parts) p =
      .skipped (extOf p.filename) := by
    simp [processPart, hext]
  refine ⟨hpp, by rw [hpp]; rfl, rfl, ?_⟩
  rw [← hpp]
  show hasSub (outcomeLine (processPart allowed
      (makeDataDirForForm dataDir now req.parts) p))
    (joinAll ((req.parts.map (processPart allowed
      (makeDataDirForForm dataDir now req.parts))).map outcomeLine)) = true
  exact hasSub_joinAll _ _
    (List.mem_map_of_mem _ (List.mem_map_of_mem _ hmem))

/-- Witness for C4 amended: the concrete disallowed part `report.pdf`. -/
theorem c4_skipped_part_amended_witness :
    processPart allowedDefault (makeDataDirForForm (lit "data")
        (lit "2011-01-01_00-00-00") [⟨lit "f", lit "report.pdf", false⟩])
        ⟨lit "f", lit "report.pdf", false⟩ =
      .skipped (extOf (lit "report.pdf")) ∧
    outcomeEffects (processPart allowedDefault (makeDataDirForForm
        (lit "data") (lit "2011-01-01_00-00-00")
        [⟨lit "f", lit "report.pdf", false⟩])
        ⟨lit "f", lit "report.pdf", false⟩) = [] ∧
    (submission (lit "data") allowedDefault (lit "2011-01-01_00-00-00")
        ⟨lit "http", lit "h", [⟨lit "f", lit "report.pdf", false⟩]⟩).status =
      201 ∧
    hasSub (outcomeLine (.skipped (extOf (lit "report.pdf"))))
      (submission (lit "data") allowedDefault (lit "2011-01-01_00-00-00")
        ⟨lit "http", lit "h", [⟨lit "f", lit "report.pdf", false⟩]⟩).body =
      true :=
  c4_skipped_part_amended (lit "data") allowedDefault
    (lit "2011-01-01_00-00-00")
    ⟨lit "http", lit "h", [⟨lit "f", lit "report.pdf", false⟩]⟩
    ⟨lit "f", lit "report.pdf", false⟩ (by decide) (by decide)

/-- Claim C5 (confirmed): the loop-based directory resolver
`MakeDataDirForForm` computes exactly the specification: scan the parts
in order, stop at the first part whose filename ends in `.xml` and
matches an arbitrary prefix followed by `YYYY-MM-DD_HH-MM-SS`; form
identity is the matched prefix lower-cased and the timestamp the matched
date/time string; with no matching part, identity `unnamed` and the
server's wall-clock time; the result is
`data_dir/form_identity/timestamp`. -/
theorem c5_resolver_refines_spec (dataDir now : List Char)
    (parts : List FormPart) :
    makeDataDirForForm dataDir now parts = resolveSpec dataDir now parts := by
  rw [makeDataDirForForm, resolveSpec, scanLoop_eq_find]

/-- Claim C6 (confirmed): the resolver is deterministic.  Two part lists
carrying the same multiset of filenames, in which the timestamp-matching
filenames appear in the same relative order (arrival order may differ
only among non-matching parts), resolve to the same directory path. -/
theorem c6_resolver_deterministic (dataDir now : List Char)
    (l1 l2 : List FormPart)
    (hperm : (l1.map FormPart.filename).Perm (l2.map FormPart.filename))
    (hmatch : (l1.map FormPart.filename).filter matchingName =
      (l2.map FormPart.filename).filter matchingName) :
    makeDataDirForForm dataDir now l1 = makeDataDirForForm dataDir now l2 := by
  rw [makeDataDirForForm, makeDataDirForForm, scanLoop_eq_filter,
    scanLoop_eq_filter, hmatch]

/-- Witness for C6: swapping a non-matching `jpg` part past the matching
XML part does not change the resolved directory. -/
theorem c6_resolver_deterministic_witness :
    makeDataDirForForm (lit "./data/") (lit "2011-01-01_00-00-00")
      [⟨lit "a", lit "photo1.jpg", false⟩,
       ⟨lit "b", lit "Basic_2010-03-03_01-49-09.xml", true⟩] =
    makeDataDirForForm (lit "./data/") (lit "2011-01-01_00-00-00")
      [⟨lit "b", lit "Basic_2010-03-03_01-49-09.xml", true⟩,
       ⟨lit "a", lit "photo1.jpg", false⟩] :=
  c6_resolver_deterministic (lit "./data/") (lit "2011-01-01_00-00-00")
    [⟨lit "a", lit "photo1.jpg", false⟩,
     ⟨lit "b", lit "Basic_2010-03-03_01-49-09.xml", true⟩]
    [⟨lit "b", lit "Basic_2010-03-03_01-49-09.xml", true⟩,
     ⟨lit "a", lit "photo1.jpg", false⟩]
    (by decide) (by decide)

/-- Claim C7, counterexample: the `Location` header is NOT
`scheme://host-from-request` — the scheme is the hard-coded literal
`http` (line 374), so a request whose transport scheme is `https` still
gets `http://example.org`. -/
theorem c7_location_scheme_counterexample :
    (submission (lit "./data/") allowedDefault (lit "2011-01-01_00-00-00")
        ⟨lit "https", lit "example.org", []⟩).location =
      lit "http://example.org" ∧
    (submission (lit "./data/") allowedDefault (lit "2011-01-01_00-00-00")
        ⟨lit "https", lit "example.org", []⟩).location ≠
      lit "https" ++ lit "://" ++ lit "example.org" := by decide

/-- Claim C7, amended: every successfully parsed `POST /submission`
request is answered with status 201 and a `Location` header equal to the
literal scheme `http://` followed by the host taken from the request's
`Host` header (the host is echoed, the scheme is hard-coded). -/
theorem c7_location_amended (dataDir : List Char)
    (allowed : List (List Char)) (now : List Char) (req : Request) :
    (submission dataDir allowed now req).status = 201 ∧
    (submission dataDir allowed now req).location =
      lit "http://" ++ req.host :=
  ⟨rfl, rfl⟩

/-- Claim C8 (confirmed): for every host and every collection of `*.xml`
files (given by their stems; `glob`/`basename` guarantee the names
contain no `/`), `GET /formList` answers 200 with a body that opens with
`<forms>`, has one `<form url="http://HOST/forms/NAME.xml">NAME</form>`
line per file — `NAME` the filename without its `.xml` extension — and
closes with `</forms>`. -/
theorem c8_formList_matches_spec (host : List Char)
    (stems : List (List Char)) (h : ∀ s ∈ stems, rfindP '/' s = none) :
    formListResult host (stems.map (fun s => s ++ lit ".xml")) =
      (200, formListSpecBody host stems) := by
  rw [formListResult, formListBody, formListSpecBody, Prod.mk.injEq]
  refine ⟨rfl, ?_⟩
  rw [List.map_map]
  have hmap : ∀ s ∈ stems,
      ((fun base =>
        lit "<form url=\"http://" ++ host ++ lit "/forms/" ++ base ++
        lit "\">" ++ splitextRoot base ++ lit "</form>\n") ∘
       (fun s => s ++ lit ".xml")) s =
      (fun s =>
        lit "<form url=\"http://" ++ host ++ lit "/forms/" ++ s ++
        lit ".xml" ++ lit "\">" ++ s ++ lit "</form>\n") s := by
    intro s hs
    simp only [Function.comp_apply, splitextRoot_stem s (h s hs),
      List.append_assoc]
  rw [List.map_congr_left hmap]

/-- Witness for C8 at a concrete forms directory listing. -/
theorem c8_formList_matches_spec_witness :
    formListResult (lit "h") [lit "Basic.xml", lit "a.b.xml"] =
      (200, formListSpecBody (lit "h") [lit "Basic", lit "a.b"]) :=
  c8_formList_matches_spec (lit "h") [lit "Basic", lit "a.b"] (by decide)

/-- Claim C9 (confirmed): the textual sanitization does not guard
against absolute paths.  For the declared filename `/etc/passwd.xml`
(allowed extension `xml`), `os.path.join` discards the submission
directory entirely: the file is stored at `/etc/passwd.xml`, which does
not lie under the resolved submission directory. -/
theorem c9_absolute_path_escape :
    storedPathsOf (submission (lit "./data/") allowedDefault
        (lit "2010-01-01_00-00-00")
        ⟨lit "http", lit "h", [⟨lit "f", lit "/etc/passwd.xml", true⟩]⟩) =
      [lit "/etc/passwd.xml"] ∧
    hasPre (makeDataDirForForm (lit "./data/") (lit "2010-01-01_00-00-00")
        [⟨lit "f", lit "/etc/passwd.xml", true⟩])
      (lit "/etc/passwd.xml") = false := by decide

/-- Claim C10 (confirmed): the handler's first filesystem effect is the
idempotent creation of the resolved submission directory, before any
part is examined for placement; when every part is skipped by the
allow-list, that directory creation is the only effect, so an empty
directory is still left under `data_dir`. -/
theorem c10_dir_created_first (dataDir : List Char)
    (allowed : List (List Char)) (now : List Char) (req : Request) :
    (submission dataDir allowed now req).effects.head? =
      some (.mkdirIfAbsent (makeDataDirForForm dataDir now req.parts)) ∧
    ((∀ p ∈ req.parts, extOf p.filename ∉ allowed) →
      (submission dataDir allowed now req).effects =
        [.mkdirIfAbsent (makeDataDirForForm dataDir now req.parts)]) := by
  constructor
  · rfl
  · intro h
    have hnil : ∀ l ∈ (req.parts.map (processPart allowed
        (makeDataDirForForm dataDir now req.parts))).map outcomeEffects,
        l = ([] : List Effect) := by
      intro l hl
      rcases List.mem_map.mp hl with ⟨o, ho, rfl⟩
      rcases List.mem_map.mp ho with ⟨p, hp, rfl⟩
      simp [processPart, outcomeEffects, h p hp]
    show Effect.mkdirIfAbsent (makeDataDirForForm dataDir now req.parts) ::
        joinAll ((req.parts.map (processPart allowed
          (makeDataDirForForm dataDir now req.parts))).map outcomeEffects) =
      [Effect.mkdirIfAbsent (makeDataDirForForm dataDir now req.parts)]
    rw [joinAll_eq_nil _ hnil]

/-- Witness for C10: a submission whose only part has a disallowed
extension still creates (only) the resolved directory. -/
theorem c10_dir_created_first_witness :
    (submission (lit "./data/") allowedDefault (lit "2011-01-01_00-00-00")
        ⟨lit "http", lit "h", [⟨lit "f", lit "notes.txt", false⟩]⟩).effects =
      [.mkdirIfAbsent (lit "./data/unnamed/2011-01-01_00-00-00")] := by
  have h := (c10_dir_created_first (lit "./data/") allowedDefault
    (lit "2011-01-01_00-00-00")
    ⟨lit "http", lit "h", [⟨lit "f", lit "notes.txt", false⟩]⟩).2 (by decide)
  rw [h]
  decide
